import Mathlib

/-!
Shallow embedding of the synthetic hotel-booking data generator
(`hotel_data_generator.py`) and proofs about its generation core.

Modelling conventions:
* Calendar dates in the booking-synthesis loop are integers counting days
  (`datetime` values at midnight; `timedelta` arithmetic becomes integer
  arithmetic, `(a - b).days` becomes `a - b`).
* Currency amounts and occupancy fractions are rationals (`ℚ`); Python's
  `round(x, 2)` is modelled by integer rounding of `100 * x`.
* Every consumed random draw (`np.random.*`) is an explicit input: the whole
  generation run is parametrised by an `Oracle` supplying, for each
  (day, room-type index, candidate index), the drawn values.  Facts numpy
  guarantees about each draw (ranges, categorical supports) are captured by
  the predicate `Draws.Valid` and assumed only where a theorem needs them.
* Python's `int()` truncation toward zero is `pyTrunc`; a `dict` raising
  `ZeroDivisionError` or returning nothing is modelled with `Option`.
-/

/-- Python `int(q)`: truncation toward zero. -/
def pyTrunc (q : ℚ) : ℤ :=
  if q < 0 then ⌈q⌉ else ⌊q⌋

/-- Python `round(q, 2)` (rounding to 2 decimal places; tie-breaking detail of
binary floats is immaterial to every property proved below). -/
def round2 (q : ℚ) : ℚ :=
  ((round (q * 100) : ℤ) : ℚ) / 100

/-- `np.random.uniform(a, b)` where `u ∈ [0,1]` is the underlying unit draw:
the returned sample is `a + u * (b - a)`. -/
def uniformDraw (a b u : ℚ) : ℚ :=
  a + u * (b - a)

/-- Line 285: `night_weights = [w / sum(night_weights) for w in night_weights]`.
`none` models the `ZeroDivisionError` Python raises when the weights sum to 0. -/
def normalize_night_weights (ws : List ℚ) : Option (List ℚ) :=
  if ws.sum = 0 then none else some (ws.map (fun w => w / ws.sum))

/-- A `datetime`, reduced to the fields `get_occupancy_for_date` reads. -/
structure PyDate where
  year : ℤ
  month : ℤ

/-- The `tier_ranges` dict `{1: (..), 2: (..), 3: (..), 4: (..)}` of
(min%, max%) pairs built from the sidebar sliders. -/
structure TierRanges where
  t1 : ℚ × ℚ
  t2 : ℚ × ℚ
  t3 : ℚ × ℚ
  t4 : ℚ × ℚ

/-- Lookup `tier_ranges[tier]`; the generator only ever queries keys 1–4,
so the catch-all branch is unreachable there. -/
def TierRanges.get (tr : TierRanges) (i : ℕ) : ℚ × ℚ :=
  match i with
  | 1 => tr.t1
  | 2 => tr.t2
  | 3 => tr.t3
  | 4 => tr.t4
  | _ => (0, 0)

/-- Lines 10–49: `get_occupancy_for_date(checkin_date, today, tier_ranges,
fallback_min, fallback_max)`, with the unit uniform draw `u` made explicit. -/
def get_occupancy_for_date (checkin_date today : PyDate)
    (tier_ranges : Option TierRanges) (fallback_min fallback_max : ℚ)
    (u : ℚ) : ℚ :=
  match tier_ranges with
  | none => uniformDraw (fallback_min / 100) (fallback_max / 100) u
  | some tiers =>
      let months_diff : ℤ :=
        (checkin_date.year - today.year) * 12 + (checkin_date.month - today.month)
      let tier : ℕ :=
        if months_diff < 0 then 1
        else if months_diff ≤ 3 then 1
        else if months_diff ≤ 6 then 2
        else if months_diff ≤ 9 then 3
        else 4
      let t := tiers.get tier
      uniformDraw (t.1 / 100) (t.2 / 100) u

/-- Tier selection as the specification words it: tier 1 for `monthsDiff < 0`,
tier 1 for `0 ≤ monthsDiff ≤ 3`, tier 2 for `4–6`, tier 3 for `7–9`,
tier 4 for `monthsDiff ≥ 10`.  Written from the spec, to be compared with
the source's chained `elif` selection. -/
def tierForMonthsSpec (months_diff : ℤ) : ℕ :=
  if months_diff < 0 then 1
  else if 0 ≤ months_diff ∧ months_diff ≤ 3 then 1
  else if 4 ≤ months_diff ∧ months_diff ≤ 6 then 2
  else if 7 ≤ months_diff ∧ months_diff ≤ 9 then 3
  else 4

/-- The occupancy-target function as the specification describes it
(`monthsDiff` formula, spec-worded tier selection, uniform draw from the
selected range divided by 100; fallback range when no tiers are given). -/
def occupancySpec (checkin_date today : PyDate)
    (tier_ranges : Option TierRanges) (fallback_min fallback_max : ℚ)
    (u : ℚ) : ℚ :=
  match tier_ranges with
  | none => uniformDraw (fallback_min / 100) (fallback_max / 100) u
  | some tiers =>
      let months_diff : ℤ :=
        (checkin_date.year - today.year) * 12 + (checkin_date.month - today.month)
      let t := tiers.get (tierForMonthsSpec months_diff)
      uniformDraw (t.1 / 100) (t.2 / 100) u

/-- One entry of `room_configs`: `{"total": count, "base_rate": rate}`. -/
structure RoomCfg where
  total : ℕ
  base_rate : ℚ
deriving DecidableEq

/-- The configuration the generation loop reads (dates as integer day numbers;
`room_configs` in dict insertion order; the three percentage rate plans'
discount fractions; the fixed corporate discount; the member discount %). -/
structure Config where
  booking_start : ℤ
  booking_end : ℤ
  checkin_start : ℤ
  checkin_end : ℤ
  room_configs : List (String × RoomCfg)
  bar_discount : ℚ
  nonref_discount : ℚ
  earlybird_discount : ℚ
  corporate_discount_idr : ℚ
  member_discount_pct : ℚ
deriving DecidableEq

/-- The designated early-bird plan's label. -/
def ebPlan : String := "Early Bird (> 30 days)"

/-- Line 250: `rate_plans = list(rate_plan_discounts.keys()) + ["Corporate"]`. -/
def rate_plans : List String := ["BAR", "Non-Refundable", ebPlan, "Corporate"]

/-- Line 374: `other_plans = [p for p in rate_plans if p != "Early Bird (> 30 days)"]`. -/
def other_plans : List String := rate_plans.filter (fun p => p ≠ ebPlan)

/-- Line 383: `rate_plan_discounts.get(rate_plan, 0)` on the dict whose keys
are the three percentage plans. -/
def lookupDiscount (cfg : Config) (plan : String) : ℚ :=
  if plan = "BAR" then cfg.bar_discount
  else if plan = "Non-Refundable" then cfg.nonref_discount
  else if plan = ebPlan then cfg.earlybird_discount
  else 0

/-- The random draws one candidate booking consumes, in the order the source
consumes them.  `advance` is `np.random.randint(1, max_advance + 1)` (used
only when `max_advance > 0`); `nights` is `np.random.choice([1..7], p=…)`;
`plan_choice` indexes `np.random.choice(other_plans)`; `is_member` is
`np.random.random() < 0.3`; the two channel fields are the categorical
channel draws for the member / non-member branch; `jitter` is
`np.random.uniform(0.95, 1.05)`; `guests` is `np.random.randint(1, 4)`;
`status` is `np.random.choice(["Confirmed", "Cancelled"], p=[0.9, 0.1])`. -/
structure Draws where
  advance : ℤ
  nights : ℕ
  plan_choice : ℕ
  is_member : Bool
  member_channel : String
  nonmember_channel : String
  jitter : ℚ
  guests : ℕ
  status : String
deriving DecidableEq

/-- The range/support facts numpy guarantees for each draw. -/
def Draws.Valid (dr : Draws) : Prop :=
  1 ≤ dr.advance ∧
  1 ≤ dr.nights ∧ dr.nights ≤ 7 ∧
  dr.plan_choice < 3 ∧
  (19 : ℚ) / 20 ≤ dr.jitter ∧ dr.jitter ≤ 21 / 20 ∧
  1 ≤ dr.guests ∧ dr.guests ≤ 3 ∧
  (dr.status = "Confirmed" ∨ dr.status = "Cancelled")

/-- The random source for a whole run: a target-occupancy fraction per
(day, room-type index) and a bundle of draws per (day, room-type index,
candidate index). -/
structure Oracle where
  pct : ℤ → ℕ → ℚ
  draws : ℤ → ℕ → ℕ → Draws

/-- Every draw an oracle can supply satisfies the numpy range facts. -/
def Oracle.Valid (O : Oracle) : Prop :=
  ∀ d ri k, (O.draws d ri k).Valid

/-- One row of `bookings_data` (the id kept as the raw counter value). -/
structure Booking where
  id : ℕ
  book_date : ℤ
  checkin : ℤ
  checkout : ℤ
  room_type : String
  rate_plan : String
  booked_rate : ℚ
  nights : ℕ
  guests : ℕ
  channel : String
  status : String
  revenue : ℚ
deriving DecidableEq

/-- Mutable state of the generation loop: the `occupancy_tracker` (zero
outside the tracked horizon, exactly like the dict whose keys are the horizon
days), the emitted bookings, and `booking_counter`. -/
structure GenState where
  tracker : ℤ → String → ℕ
  bookings : List Booking
  counter : ℕ

/-- Initial state (lines 329–337): zeroed tracker, no bookings, counter 1. -/
def initState : GenState :=
  { tracker := fun _ _ => 0, bookings := [], counter := 1 }

/-- Lines 363–367: build one candidate booking record from its draws.
Mirrors the source body line by line: clamped booking date, nights, checkout,
early-bird forcing / uniform plan choice, corporate vs percentage rate,
member stacking, jitter and rounding, status and revenue. -/
def mkBooking (cfg : Config) (dr : Draws) (d : ℤ) (room_type : String)
    (details : RoomCfg) (counter : ℕ) : Booking :=
  let max_advance : ℤ := min 90 (d - cfg.booking_start)
  let book_date0 : ℤ := if 0 < max_advance then d - dr.advance else cfg.booking_start
  let book_date1 : ℤ := max book_date0 cfg.booking_start
  let book_date : ℤ := min book_date1 cfg.booking_end
  let checkin_date : ℤ := d
  let num_nights : ℕ := dr.nights
  let checkout_date : ℤ := checkin_date + num_nights
  let base_rate : ℚ := details.base_rate
  let days_advance : ℤ := checkin_date - book_date
  let rate_plan0 : String :=
    if 30 < days_advance then ebPlan else other_plans.getD dr.plan_choice "BAR"
  let booked_rate0 : ℚ :=
    if rate_plan0 = "Corporate" then base_rate - cfg.corporate_discount_idr
    else base_rate * (1 - lookupDiscount cfg rate_plan0)
  let booked_rate1 : ℚ :=
    if dr.is_member then booked_rate0 * (1 - cfg.member_discount_pct / 100)
    else booked_rate0
  let rate_plan : String :=
    if dr.is_member then rate_plan0 ++ " + Member" else rate_plan0
  let channel : String :=
    if dr.is_member then dr.member_channel else dr.nonmember_channel
  let booked_rate : ℚ := round2 (booked_rate1 * dr.jitter)
  let revenue : ℚ :=
    if dr.status = "Confirmed" then booked_rate * (num_nights : ℚ) else 0
  { id := counter
    book_date := book_date
    checkin := checkin_date
    checkout := checkout_date
    room_type := room_type
    rate_plan := rate_plan
    booked_rate := booked_rate
    nights := num_nights
    guests := dr.guests
    channel := channel
    status := dr.status
    revenue := revenue }

/-- Lines 424–429: increment the tracker for every stay night of
`[checkin, checkout)` that lies in the tracked horizon (dict keys
`checkin_start..checkin_end`); pointwise net effect of the `while stay` loop. -/
def trackIncr (cfg : Config) (room_type : String) (checkin checkout : ℤ)
    (tr : ℤ → String → ℕ) : ℤ → String → ℕ :=
  fun t r =>
    if r = room_type ∧ checkin ≤ t ∧ t < checkout ∧
        cfg.checkin_start ≤ t ∧ t ≤ cfg.checkin_end then
      tr t r + 1
    else tr t r

/-- Lines 351–431, body of `for _ in range(rooms_needed)`: emit the candidate
unless its checkout overruns the stay window (line 367); a Confirmed booking
feeds the occupancy tracker; the counter advances per emitted booking. -/
def candStep (cfg : Config) (dr : Draws) (d : ℤ) (room_type : String)
    (details : RoomCfg) (s : GenState) : GenState :=
  let checkout_date : ℤ := d + dr.nights
  if checkout_date ≤ cfg.checkin_end then
    let b := mkBooking cfg dr d room_type details s.counter
    { tracker :=
        if b.status = "Confirmed" then
          trackIncr cfg room_type d checkout_date s.tracker
        else s.tracker
      bookings := s.bookings ++ [b]
      counter := s.counter + 1 }
  else s

/-- The `for _ in range(rooms_needed)` loop; `k` is the candidate index used
to address the oracle. -/
def candLoop (cfg : Config) (O : Oracle) (d : ℤ) (ri : ℕ) (room_type : String)
    (details : RoomCfg) : ℕ → ℕ → GenState → GenState
  | 0, _, s => s
  | n + 1, k, s =>
      candLoop cfg O d ri room_type details n (k + 1)
        (candStep cfg (O.draws d ri k) d room_type details s)

/-- Lines 344–349: one (day, room type) block — target occupancy, truncated
target count, rooms needed (clamped at 0), then the candidate loop. -/
def blockStep (cfg : Config) (O : Oracle) (d : ℤ) (ri : ℕ) (room_type : String)
    (details : RoomCfg) (s : GenState) : GenState :=
  let target_pct : ℚ := O.pct d ri
  let target_occupied : ℤ := pyTrunc ((details.total : ℚ) * target_pct)
  let current_occupied : ℕ := s.tracker d room_type
  let rooms_needed : ℕ := (target_occupied - (current_occupied : ℤ)).toNat
  candLoop cfg O d ri room_type details rooms_needed 0 s

/-- `for room_type, details in room_configs.items()`, threading the room-type
index for the oracle. -/
def processRooms (cfg : Config) (O : Oracle) (d : ℤ) :
    List (String × RoomCfg) → ℕ → GenState → GenState
  | [], _, s => s
  | (room_type, details) :: rest, ri, s =>
      processRooms cfg O d rest (ri + 1) (blockStep cfg O d ri room_type details s)

/-- One iteration of the outer `while d <= checkin_end_dt` loop. -/
def processDay (cfg : Config) (O : Oracle) (d : ℤ) (s : GenState) : GenState :=
  processRooms cfg O d cfg.room_configs 0 s

/-- Run `n` consecutive days starting at day `a`. -/
def runFrom (cfg : Config) (O : Oracle) : ℤ → ℕ → GenState → GenState
  | _, 0, s => s
  | a, n + 1, s => runFrom cfg O (a + 1) n (processDay cfg O a s)

/-- The whole booking-synthesis run (lines 328–432): all days of
`[checkin_start, checkin_end]` in ascending order from the initial state. -/
def run (cfg : Config) (O : Oracle) : GenState :=
  runFrom cfg O cfg.checkin_start (cfg.checkin_end + 1 - cfg.checkin_start).toNat initState

/-- The clamped booking date of a candidate (lines 352–361), as `mkBooking`
computes it. -/
def clampBookDate (cfg : Config) (dr : Draws) (d : ℤ) : ℤ :=
  min (max (if 0 < min 90 (d - cfg.booking_start) then d - dr.advance
            else cfg.booking_start) cfg.booking_start) cfg.booking_end

/-- The rate plan before any member suffix (lines 369–375), as `mkBooking`
computes it. -/
def basePlanOf (cfg : Config) (dr : Draws) (d : ℤ) : String :=
  if 30 < d - clampBookDate cfg dr d then ebPlan
  else other_plans.getD dr.plan_choice "BAR"

/-- The pre-jitter nightly rate (lines 377–390), as `mkBooking` computes it. -/
def preRate (cfg : Config) (dr : Draws) (d : ℤ) (rc : RoomCfg) : ℚ :=
  let plan0 := basePlanOf cfg dr d
  let r0 : ℚ :=
    if plan0 = "Corporate" then rc.base_rate - cfg.corporate_discount_idr
    else rc.base_rate * (1 - lookupDiscount cfg plan0)
  if dr.is_member then r0 * (1 - cfg.member_discount_pct / 100) else r0

/-- All eight tier-slider values lie in `[0, 100]` (the sidebar sliders
enforce sub-ranges of this). -/
def TierRangesBounded (tiers : TierRanges) : Prop :=
  (0 ≤ tiers.t1.1 ∧ tiers.t1.1 ≤ 100) ∧ (0 ≤ tiers.t1.2 ∧ tiers.t1.2 ≤ 100) ∧
  (0 ≤ tiers.t2.1 ∧ tiers.t2.1 ≤ 100) ∧ (0 ≤ tiers.t2.2 ∧ tiers.t2.2 ≤ 100) ∧
  (0 ≤ tiers.t3.1 ∧ tiers.t3.1 ≤ 100) ∧ (0 ≤ tiers.t3.2 ∧ tiers.t3.2 ≤ 100) ∧
  (0 ≤ tiers.t4.1 ∧ tiers.t4.1 ≤ 100) ∧ (0 ≤ tiers.t4.2 ∧ tiers.t4.2 ≤ 100)

/-! ### Concrete data for witnesses and counterexamples -/

/-- A fixed bundle of draws, within every numpy-guaranteed range. -/
def drW : Draws :=
  { advance := 1, nights := 1, plan_choice := 2, is_member := false,
    member_channel := "Direct", nonmember_channel := "OTA",
    jitter := 1, guests := 2, status := "Confirmed" }

/-- Constant oracle: full occupancy target, `drW` for every candidate. -/
def oW : Oracle := { pct := fun _ _ => 1, draws := fun _ _ _ => drW }

/-- A well-formed configuration: booking window before the stay window. -/
def cfgW : Config :=
  { booking_start := 0, booking_end := 100, checkin_start := 10, checkin_end := 11,
    room_configs := [("Standard", { total := 1, base_rate := 900000 })],
    bar_discount := 0, nonref_discount := 1 / 10, earlybird_discount := 3 / 20,
    corporate_discount_idr := 150000, member_discount_pct := 10 }

/-- The single booking `run cfgW oW` emits. -/
def bW : Booking :=
  { id := 1, book_date := 9, checkin := 10, checkout := 11,
    room_type := "Standard", rate_plan := "Corporate", booked_rate := 750000,
    nights := 1, guests := 2, channel := "OTA", status := "Confirmed",
    revenue := 750000 }

/-- A configuration whose booking window starts after it ends and after the
stay window; the sidebar only warns about this, generation still runs. -/
def cfgC1x : Config :=
  { booking_start := 10, booking_end := 5, checkin_start := 0, checkin_end := 1,
    room_configs := [("Standard", { total := 1, base_rate := 900000 })],
    bar_discount := 0, nonref_discount := 1 / 10, earlybird_discount := 3 / 20,
    corporate_discount_idr := 150000, member_discount_pct := 10 }

/-- The single booking `run cfgC1x oW` emits: its booking date 5 lies outside
`[10, 5]`-as-ordered-window and after its check-in date 0. -/
def b1x : Booking :=
  { id := 1, book_date := 5, checkin := 0, checkout := 1,
    room_type := "Standard", rate_plan := "Corporate", booked_rate := 750000,
    nights := 1, guests := 2, channel := "OTA", status := "Confirmed",
    revenue := 750000 }

/-- A configuration whose corporate discount equals the base rate exactly
(both reachable sidebar values). -/
def cfgC7x : Config :=
  { booking_start := 0, booking_end := 100, checkin_start := 0, checkin_end := 1,
    room_configs := [("Standard", { total := 1, base_rate := 150000 })],
    bar_discount := 0, nonref_discount := 1 / 10, earlybird_discount := 3 / 20,
    corporate_discount_idr := 150000, member_discount_pct := 10 }

/-- The single booking `run cfgC7x oW` emits: Confirmed with revenue 0. -/
def b7x : Booking :=
  { id := 1, book_date := 0, checkin := 0, checkout := 1,
    room_type := "Standard", rate_plan := "Corporate", booked_rate := 0,
    nights := 1, guests := 2, channel := "OTA", status := "Confirmed",
    revenue := 0 }

/-- A configuration whose corporate discount exceeds the base rate. -/
def cfg10 : Config :=
  { booking_start := 0, booking_end := 100, checkin_start := 10, checkin_end := 11,
    room_configs := [("Standard", { total := 1, base_rate := 900000 })],
    bar_discount := 0, nonref_discount := 1 / 10, earlybird_discount := 3 / 20,
    corporate_discount_idr := 1000000, member_discount_pct := 10 }

/-- The single booking `run cfg10 oW` emits: negative rate and revenue. -/
def b10x : Booking :=
  { id := 1, book_date := 9, checkin := 10, checkout := 11,
    room_type := "Standard", rate_plan := "Corporate", booked_rate := -100000,
    nights := 1, guests := 2, channel := "OTA", status := "Confirmed",
    revenue := -100000 }

/-! ### Helper lemmas -/

lemma pyTrunc_mul_le (total : ℕ) (pct : ℚ) (h : pct ≤ 1) :
    pyTrunc ((total : ℚ) * pct) ≤ (total : ℤ) := by
  unfold pyTrunc
  split_ifs with hneg
  · exact le_trans (Int.ceil_le.mpr (le_trans hneg.le (by exact_mod_cast Nat.cast_nonneg total))) le_rfl
  · calc ⌊(total : ℚ) * pct⌋ ≤ ⌊(total : ℚ)⌋ := by
          apply Int.floor_le_floor
          calc (total : ℚ) * pct ≤ (total : ℚ) * 1 :=
                mul_le_mul_of_nonneg_left h (by positivity)
            _ = (total : ℚ) := mul_one _
    _ = (total : ℤ) := Int.floor_natCast total

lemma uniformDraw_nonneg (a b u : ℚ) (ha : 0 ≤ a) (hb : 0 ≤ b) (hu0 : 0 ≤ u)
    (hu1 : u ≤ 1) : 0 ≤ uniformDraw a b u := by
  unfold uniformDraw
  rcases le_total a b with hab | hab
  · nlinarith
  · nlinarith

lemma uniformDraw_le_one (a b u : ℚ) (ha : a ≤ 1) (hb : b ≤ 1) (hu0 : 0 ≤ u)
    (hu1 : u ≤ 1) : uniformDraw a b u ≤ 1 := by
  unfold uniformDraw
  rcases le_total a b with hab | hab
  · nlinarith
  · nlinarith

lemma round2_neg_of_le (q : ℚ) (h : q ≤ -19 / 40) : round2 q < 0 := by
  unfold round2
  have h100 : q * 100 + 1 / 2 ≤ (-47 : ℚ) := by linarith
  have hr : round (q * 100) ≤ (-47 : ℤ) := by
    rw [round_eq]
    calc ⌊q * 100 + 1 / 2⌋ ≤ ⌊(-47 : ℚ)⌋ := Int.floor_le_floor h100
      _ = (-47 : ℤ) := by norm_num
  have hq : ((round (q * 100) : ℤ) : ℚ) ≤ ((-47 : ℤ) : ℚ) := by exact_mod_cast hr
  have hlt : ((round (q * 100) : ℤ) : ℚ) < 0 := lt_of_le_of_lt hq (by norm_num)
  exact div_neg_of_neg_of_pos hlt (by norm_num)

lemma sum_map_div (ws : List ℚ) (s : ℚ) :
    (ws.map (fun w => w / s)).sum = ws.sum / s := by
  induction ws with
  | nil => simp
  | cons a l ih => simp [ih, add_div]

lemma key_nodup_eq {l : List (String × RoomCfg)} (hnd : (l.map Prod.fst).Nodup)
    {a : String} {b c : RoomCfg} (hb : (a, b) ∈ l) (hc : (a, c) ∈ l) : b = c := by
  induction l with
  | nil => cases hb
  | cons p rest ih =>
      simp only [List.map_cons, List.nodup_cons] at hnd
      rcases List.mem_cons.mp hb with hb1 | hb1 <;>
        rcases List.mem_cons.mp hc with hc1 | hc1
      · exact (Prod.ext_iff.mp (hb1.trans hc1.symm)).2
      · exfalso
        apply hnd.1
        rw [← hb1]
        exact List.mem_map.mpr ⟨(a, c), hc1, rfl⟩
      · exfalso
        apply hnd.1
        rw [← hc1]
        exact List.mem_map.mpr ⟨(a, b), hb1, rfl⟩
      · exact ih hnd.2 hb1 hc1

/-! ### Provenance: every emitted booking is a guarded `mkBooking` -/

/-- `Q` holds of every booking in the state. -/
def AllBookings (s : GenState) (Q : Booking → Prop) : Prop :=
  ∀ b ∈ s.bookings, Q b

/-- Per-day candidate obligation: `Q` holds of every candidate one day can
emit (any room entry, any oracle address, any counter) once it passes the
checkout guard. -/
def DayOk (cfg : Config) (O : Oracle) (Q : Booking → Prop) (d : ℤ) : Prop :=
  ∀ ri k id p, p ∈ cfg.room_configs →
    d + ((O.draws d ri k).nights : ℤ) ≤ cfg.checkin_end →
    Q (mkBooking cfg (O.draws d ri k) d p.1 p.2 id)

lemma candStep_all {cfg : Config} {dr : Draws} {d : ℤ} {rt : String}
    {rc : RoomCfg} {s : GenState} {Q : Booking → Prop}
    (hs : AllBookings s Q)
    (hnew : ∀ id, d + (dr.nights : ℤ) ≤ cfg.checkin_end →
      Q (mkBooking cfg dr d rt rc id)) :
    AllBookings (candStep cfg dr d rt rc s) Q := by
  simp only [candStep]
  split_ifs with hguard hconf <;> intro b hb
  · rcases List.mem_append.mp hb with hb1 | hb1
    · exact hs b hb1
    · rcases List.mem_singleton.mp hb1 with rfl
      exact hnew s.counter hguard
  · rcases List.mem_append.mp hb with hb1 | hb1
    · exact hs b hb1
    · rcases List.mem_singleton.mp hb1 with rfl
      exact hnew s.counter hguard
  · exact hs b hb

lemma candLoop_all {cfg : Config} {O : Oracle} {d : ℤ} {ri : ℕ} {rt : String}
    {rc : RoomCfg} {Q : Booking → Prop}
    (hnew : ∀ k id, d + ((O.draws d ri k).nights : ℤ) ≤ cfg.checkin_end →
      Q (mkBooking cfg (O.draws d ri k) d rt rc id)) :
    ∀ n k s, AllBookings s Q →
      AllBookings (candLoop cfg O d ri rt rc n k s) Q := by
  intro n
  induction n with
  | zero => intro k s hs; exact hs
  | succ m ih =>
      intro k s hs
      exact ih (k + 1) _ (candStep_all hs (hnew k))

lemma blockStep_all {cfg : Config} {O : Oracle} {d : ℤ} {ri : ℕ} {rt : String}
    {rc : RoomCfg} {s : GenState} {Q : Booking → Prop}
    (hs : AllBookings s Q)
    (hnew : ∀ k id, d + ((O.draws d ri k).nights : ℤ) ≤ cfg.checkin_end →
      Q (mkBooking cfg (O.draws d ri k) d rt rc id)) :
    AllBookings (blockStep cfg O d ri rt rc s) Q :=
  candLoop_all hnew _ _ _ hs

lemma processRooms_all {cfg : Config} {O : Oracle} {d : ℤ} {Q : Booking → Prop}
    (hday : DayOk cfg O Q d) :
    ∀ (l : List (String × RoomCfg)), (∀ p ∈ l, p ∈ cfg.room_configs) →
      ∀ ri s, AllBookings s Q →
        AllBookings (processRooms cfg O d l ri s) Q := by
  intro l
  induction l with
  | nil => intro _ ri s hs; exact hs
  | cons p rest ih =>
      intro hmem ri s hs
      have hp : p ∈ cfg.room_configs := hmem p (List.mem_cons_self p rest)
      have hrest : ∀ q ∈ rest, q ∈ cfg.room_configs :=
        fun q hq => hmem q (List.mem_cons_of_mem p hq)
      exact ih hrest (ri + 1) _
        (blockStep_all hs (fun k id hg => hday ri k id p hp hg))

lemma processDay_all {cfg : Config} {O : Oracle} {d : ℤ} {s : GenState}
    {Q : Booking → Prop} (hday : DayOk cfg O Q d) (hs : AllBookings s Q) :
    AllBookings (processDay cfg O d s) Q :=
  processRooms_all hday cfg.room_configs (fun _ hp => hp) 0 s hs

lemma runFrom_all {cfg : Config} {O : Oracle} {Q : Booking → Prop} :
    ∀ (n : ℕ) (a : ℤ) (s : GenState),
      (∀ d, a ≤ d → d < a + (n : ℤ) → DayOk cfg O Q d) →
      AllBookings s Q → AllBookings (runFrom cfg O a n s) Q := by
  intro n
  induction n with
  | zero => intro a s _ hs; exact hs
  | succ m ih =>
      intro a s hday hs
      have h1 : DayOk cfg O Q a := hday a le_rfl (by omega)
      exact ih (a + 1) _ (fun d hd1 hd2 => hday d (by omega) (by omega))
        (processDay_all h1 hs)

/-- Master provenance lemma: if `Q` holds of every candidate booking any
in-horizon day can emit (with its checkout guard satisfied), then `Q` holds
of every booking the run emits. -/
lemma run_bookings_all {cfg : Config} {O : Oracle} {Q : Booking → Prop}
    (h : ∀ d ri k id p, p ∈ cfg.room_configs →
      cfg.checkin_start ≤ d → d ≤ cfg.checkin_end →
      d + ((O.draws d ri k).nights : ℤ) ≤ cfg.checkin_end →
      Q (mkBooking cfg (O.draws d ri k) d p.1 p.2 id)) :
    AllBookings (run cfg O) Q := by
  unfold run
  apply runFrom_all
  · intro d hd1 hd2
    intro ri k id p hp hg
    have hle : d ≤ cfg.checkin_end := by
      rcases le_or_lt cfg.checkin_start (cfg.checkin_end + 1) with hcase | hcase
      · have : ((cfg.checkin_end + 1 - cfg.checkin_start).toNat : ℤ) =
            cfg.checkin_end + 1 - cfg.checkin_start := Int.toNat_of_nonneg (by omega)
        omega
      · have : ((cfg.checkin_end + 1 - cfg.checkin_start).toNat : ℤ) = 0 := by
          rw [Int.toNat_of_nonpos (by omega)]
          rfl
        omega
    exact h d ri k id p hp hd1 hle hg
  · intro b hb
    cases hb

/-! ### Occupancy-tracker bound infrastructure -/

lemma trackIncr_ge (cfg : Config) (rt : String) (ci co : ℤ)
    (tr : ℤ → String → ℕ) (t : ℤ) (r : String) :
    tr t r ≤ trackIncr cfg rt ci co tr t r := by
  unfold trackIncr
  split_ifs <;> omega

lemma trackIncr_le (cfg : Config) (rt : String) (ci co : ℤ)
    (tr : ℤ → String → ℕ) (t : ℤ) (r : String) :
    trackIncr cfg rt ci co tr t r ≤ tr t r + 1 := by
  unfold trackIncr
  split_ifs <;> omega

lemma trackIncr_eq_of (cfg : Config) (rt : String) (ci co : ℤ)
    (tr : ℤ → String → ℕ) (t : ℤ) (r : String) (h : r ≠ rt ∨ t < ci) :
    trackIncr cfg rt ci co tr t r = tr t r := by
  unfold trackIncr
  split_ifs with hc
  · rcases h with h1 | h1
    · exact absurd hc.1 h1
    · omega
  · rfl

lemma trackIncr_mono (cfg : Config) (rt : String) (ci co : ℤ)
    (tr : ℤ → String → ℕ) (hcs : cfg.checkin_start ≤ ci)
    (hm : ∀ t, ci + 1 ≤ t → tr t rt ≤ tr (t - 1) rt) :
    ∀ t, ci + 1 ≤ t →
      trackIncr cfg rt ci co tr t rt ≤ trackIncr cfg rt ci co tr (t - 1) rt := by
  intro t ht
  unfold trackIncr
  by_cases hc : rt = rt ∧ ci ≤ t ∧ t < co ∧ cfg.checkin_start ≤ t ∧ t ≤ cfg.checkin_end
  · have hc1 : rt = rt ∧ ci ≤ t - 1 ∧ t - 1 < co ∧ cfg.checkin_start ≤ t - 1 ∧
        t - 1 ≤ cfg.checkin_end := ⟨rfl, by omega, by omega, by omega, by omega⟩
    rw [if_pos hc, if_pos hc1]
    have := hm t ht
    omega
  · rw [if_neg hc]
    calc tr t rt ≤ tr (t - 1) rt := hm t ht
      _ ≤ _ := by
          split_ifs <;> omega

lemma candStep_tracker_eq (cfg : Config) (dr : Draws) (d : ℤ) (rt : String)
    (rc : RoomCfg) (s : GenState) (t : ℤ) (r : String) (h : r ≠ rt ∨ t < d) :
    (candStep cfg dr d rt rc s).tracker t r = s.tracker t r := by
  simp only [candStep]
  split_ifs with hguard hconf
  · exact trackIncr_eq_of cfg rt d _ s.tracker t r h
  · rfl
  · rfl

lemma candStep_tracker_le (cfg : Config) (dr : Draws) (d : ℤ) (rt : String)
    (rc : RoomCfg) (s : GenState) (t : ℤ) (r : String) :
    (candStep cfg dr d rt rc s).tracker t r ≤ s.tracker t r + 1 := by
  simp only [candStep]
  split_ifs with hguard hconf
  · exact trackIncr_le cfg rt d _ s.tracker t r
  · show s.tracker t r ≤ s.tracker t r + 1
    omega
  · show s.tracker t r ≤ s.tracker t r + 1
    omega

lemma candStep_tracker_mono (cfg : Config) (dr : Draws) (d : ℤ) (rt : String)
    (rc : RoomCfg) (s : GenState) (hcs : cfg.checkin_start ≤ d)
    (hm : ∀ t, d + 1 ≤ t → s.tracker t rt ≤ s.tracker (t - 1) rt) :
    ∀ t, d + 1 ≤ t → (candStep cfg dr d rt rc s).tracker t rt ≤
      (candStep cfg dr d rt rc s).tracker (t - 1) rt := by
  intro t ht
  simp only [candStep]
  split_ifs with hguard hconf
  · exact trackIncr_mono cfg rt d _ s.tracker hcs hm t ht
  · exact hm t ht
  · exact hm t ht

lemma candLoop_tracker_eq (cfg : Config) (O : Oracle) (d : ℤ) (ri : ℕ)
    (rt : String) (rc : RoomCfg) (t : ℤ) (r : String) (h : r ≠ rt ∨ t < d) :
    ∀ n k s, (candLoop cfg O d ri rt rc n k s).tracker t r = s.tracker t r := by
  intro n
  induction n with
  | zero => intro k s; rfl
  | succ m ih =>
      intro k s
      rw [candLoop, ih (k + 1) _, candStep_tracker_eq cfg _ d rt rc s t r h]

lemma candLoop_tracker_le (cfg : Config) (O : Oracle) (d : ℤ) (ri : ℕ)
    (rt : String) (rc : RoomCfg) (t : ℤ) (r : String) :
    ∀ n k s, (candLoop cfg O d ri rt rc n k s).tracker t r ≤ s.tracker t r + n := by
  intro n
  induction n with
  | zero => intro k s; simp [candLoop]
  | succ m ih =>
      intro k s
      rw [candLoop]
      calc (candLoop cfg O d ri rt rc m (k + 1)
              (candStep cfg (O.draws d ri k) d rt rc s)).tracker t r ≤
            (candStep cfg (O.draws d ri k) d rt rc s).tracker t r + m := ih (k + 1) _
        _ ≤ s.tracker t r + 1 + m := by
            have := candStep_tracker_le cfg (O.draws d ri k) d rt rc s t r
            omega
        _ ≤ s.tracker t r + (m + 1) := by omega

lemma candLoop_tracker_mono (cfg : Config) (O : Oracle) (d : ℤ) (ri : ℕ)
    (rt : String) (rc : RoomCfg) (hcs : cfg.checkin_start ≤ d) :
    ∀ n k s, (∀ t, d + 1 ≤ t → s.tracker t rt ≤ s.tracker (t - 1) rt) →
      ∀ t, d + 1 ≤ t → (candLoop cfg O d ri rt rc n k s).tracker t rt ≤
        (candLoop cfg O d ri rt rc n k s).tracker (t - 1) rt := by
  intro n
  induction n with
  | zero => intro k s hm; exact hm
  | succ m ih =>
      intro k s hm
      exact ih (k + 1) _ (candStep_tracker_mono cfg _ d rt rc s hcs hm)

lemma blockStep_tracker_eq (cfg : Config) (O : Oracle) (d : ℤ) (ri : ℕ)
    (rt : String) (rc : RoomCfg) (s : GenState) (t : ℤ) (r : String)
    (h : r ≠ rt ∨ t < d) :
    (blockStep cfg O d ri rt rc s).tracker t r = s.tracker t r :=
  candLoop_tracker_eq cfg O d ri rt rc t r h _ _ s

lemma blockStep_tracker_le_total (cfg : Config) (O : Oracle) (d : ℤ) (ri : ℕ)
    (rt : String) (rc : RoomCfg) (s : GenState)
    (hpct : O.pct d ri ≤ 1) (hcur : s.tracker d rt ≤ rc.total) :
    (blockStep cfg O d ri rt rc s).tracker d rt ≤ rc.total := by
  have htr : pyTrunc ((rc.total : ℚ) * O.pct d ri) ≤ (rc.total : ℤ) :=
    pyTrunc_mul_le rc.total (O.pct d ri) hpct
  have hle := candLoop_tracker_le cfg O d ri rt rc d rt
    (pyTrunc ((rc.total : ℚ) * O.pct d ri) - (s.tracker d rt : ℤ)).toNat 0 s
  simp only [blockStep]
  omega

lemma blockStep_tracker_mono (cfg : Config) (O : Oracle) (d : ℤ) (ri : ℕ)
    (rt : String) (rc : RoomCfg) (s : GenState) (hcs : cfg.checkin_start ≤ d)
    (hm : ∀ t, d + 1 ≤ t → s.tracker t rt ≤ s.tracker (t - 1) rt) :
    ∀ t, d + 1 ≤ t → (blockStep cfg O d ri rt rc s).tracker t rt ≤
      (blockStep cfg O d ri rt rc s).tracker (t - 1) rt :=
  candLoop_tracker_mono cfg O d ri rt rc hcs _ _ s hm

/-- Invariant before processing day `d`: every horizon day strictly before `d`
is already final and bounded by the room count, and from `d` on the tracker is
antitone in the date (bookings seen so far cover contiguous ranges starting
before `d`). -/
def TrackerInv (cfg : Config) (d : ℤ) (s : GenState) : Prop :=
  ∀ p ∈ cfg.room_configs,
    (∀ t, t < d → s.tracker t p.1 ≤ p.2.total) ∧
    (∀ t, d ≤ t → s.tracker t p.1 ≤ s.tracker (t - 1) p.1)

/-- Mid-day invariant: day `d` itself is already bounded (some of its room
blocks may have run), and the tracker is antitone strictly after `d`. -/
def TrackerMid (cfg : Config) (d : ℤ) (s : GenState) : Prop :=
  ∀ p ∈ cfg.room_configs,
    (∀ t, t ≤ d → s.tracker t p.1 ≤ p.2.total) ∧
    (∀ t, d + 1 ≤ t → s.tracker t p.1 ≤ s.tracker (t - 1) p.1)

lemma inv_to_mid (cfg : Config) (d : ℤ) (s : GenState) (h : TrackerInv cfg d s) :
    TrackerMid cfg d s := by
  intro p hp
  obtain ⟨h1, h2⟩ := h p hp
  refine ⟨fun t ht => ?_, fun t ht => h2 t (by omega)⟩
  rcases lt_or_eq_of_le ht with ht1 | ht1
  · exact h1 t ht1
  · subst ht1
    calc s.tracker t p.1 ≤ s.tracker (t - 1) p.1 := h2 t le_rfl
      _ ≤ p.2.total := h1 (t - 1) (by omega)

lemma mid_to_inv_succ (cfg : Config) (d : ℤ) (s : GenState)
    (h : TrackerMid cfg d s) : TrackerInv cfg (d + 1) s := by
  intro p hp
  obtain ⟨h1, h2⟩ := h p hp
  exact ⟨fun t ht => h1 t (by omega), fun t ht => h2 t ht⟩

lemma blockStep_mid (cfg : Config) (O : Oracle) (d : ℤ) (ri : ℕ)
    (rt : String) (rc : RoomCfg) (s : GenState)
    (hnd : (cfg.room_configs.map Prod.fst).Nodup)
    (hp : (rt, rc) ∈ cfg.room_configs)
    (hpct : O.pct d ri ≤ 1) (hcs : cfg.checkin_start ≤ d)
    (h : TrackerMid cfg d s) : TrackerMid cfg d (blockStep cfg O d ri rt rc s) := by
  intro q hq
  obtain ⟨h1, h2⟩ := h q hq
  by_cases hqr : q.1 = rt
  · have hq2 : q.2 = rc := by
      have : (rt, q.2) ∈ cfg.room_configs := by
        rw [← hqr]
        exact hq
      exact key_nodup_eq hnd this hp
    constructor
    · intro t ht
      rcases lt_or_eq_of_le ht with ht1 | ht1
      · rw [hqr, blockStep_tracker_eq cfg O d ri rt rc s t rt (Or.inr ht1)]
        rw [← hqr]
        exact h1 t (by omega)
      · subst ht1
        rw [hqr, hq2]
        exact blockStep_tracker_le_total cfg O t ri rt rc s hpct
          (by rw [← hqr, ← hq2]; exact h1 t le_rfl)
    · intro t ht
      rw [hqr]
      refine blockStep_tracker_mono cfg O d ri rt rc s hcs ?_ t ht
      intro t2 ht2
      rw [← hqr]
      exact h2 t2 ht2
  · constructor
    · intro t ht
      rw [blockStep_tracker_eq cfg O d ri rt rc s t q.1 (Or.inl hqr)]
      exact h1 t ht
    · intro t ht
      rw [blockStep_tracker_eq cfg O d ri rt rc s t q.1 (Or.inl hqr),
        blockStep_tracker_eq cfg O d ri rt rc s (t - 1) q.1 (Or.inl hqr)]
      exact h2 t ht

lemma processRooms_mid (cfg : Config) (O : Oracle) (d : ℤ)
    (hnd : (cfg.room_configs.map Prod.fst).Nodup)
    (hpct : ∀ ri, O.pct d ri ≤ 1) (hcs : cfg.checkin_start ≤ d) :
    ∀ (l : List (String × RoomCfg)), (∀ p ∈ l, p ∈ cfg.room_configs) →
      ∀ ri s, TrackerMid cfg d s → TrackerMid cfg d (processRooms cfg O d l ri s) := by
  intro l
  induction l with
  | nil => intro _ ri s h; exact h
  | cons p rest ih =>
      intro hmem ri s h
      have hp : p ∈ cfg.room_configs := hmem p (List.mem_cons_self p rest)
      have hrest : ∀ q ∈ rest, q ∈ cfg.room_configs :=
        fun q hq => hmem q (List.mem_cons_of_mem p hq)
      exact ih hrest (ri + 1) _
        (blockStep_mid cfg O d ri p.1 p.2 s hnd (by simpa using hp) (hpct ri) hcs h)

lemma processDay_inv (cfg : Config) (O : Oracle) (d : ℤ) (s : GenState)
    (hnd : (cfg.room_configs.map Prod.fst).Nodup)
    (hpct : ∀ ri, O.pct d ri ≤ 1) (hcs : cfg.checkin_start ≤ d)
    (h : TrackerInv cfg d s) : TrackerInv cfg (d + 1) (processDay cfg O d s) :=
  mid_to_inv_succ cfg d _
    (processRooms_mid cfg O d hnd hpct hcs cfg.room_configs (fun _ hp => hp) 0 s
      (inv_to_mid cfg d s h))

lemma runFrom_inv (cfg : Config) (O : Oracle)
    (hnd : (cfg.room_configs.map Prod.fst).Nodup)
    (hpct : ∀ d ri, O.pct d ri ≤ 1) :
    ∀ (n : ℕ) (a : ℤ) (s : GenState), cfg.checkin_start ≤ a →
      TrackerInv cfg a s → TrackerInv cfg (a + n) (runFrom cfg O a n s) := by
  intro n
  induction n with
  | zero => intro a s _ h; simpa using h
  | succ m ih =>
      intro a s hcs h
      have step := processDay_inv cfg O a s hnd (hpct a) hcs h
      have rest := ih (a + 1) _ (by omega) step
      have : a + 1 + (m : ℤ) = a + ((m + 1 : ℕ) : ℤ) := by push_cast; ring
      rw [runFrom]
      rw [this] at rest
      exact rest

/-! ### `mkBooking` field laws and concrete evaluations -/

lemma mkBooking_checkin (cfg : Config) (dr : Draws) (d : ℤ) (rt : String)
    (rc : RoomCfg) (id : ℕ) : (mkBooking cfg dr d rt rc id).checkin = d := rfl

lemma mkBooking_nights (cfg : Config) (dr : Draws) (d : ℤ) (rt : String)
    (rc : RoomCfg) (id : ℕ) : (mkBooking cfg dr d rt rc id).nights = dr.nights := rfl

lemma mkBooking_checkout (cfg : Config) (dr : Draws) (d : ℤ) (rt : String)
    (rc : RoomCfg) (id : ℕ) :
    (mkBooking cfg dr d rt rc id).checkout = d + (dr.nights : ℤ) := rfl

lemma mkBooking_room_type (cfg : Config) (dr : Draws) (d : ℤ) (rt : String)
    (rc : RoomCfg) (id : ℕ) : (mkBooking cfg dr d rt rc id).room_type = rt := rfl

lemma mkBooking_status (cfg : Config) (dr : Draws) (d : ℤ) (rt : String)
    (rc : RoomCfg) (id : ℕ) : (mkBooking cfg dr d rt rc id).status = dr.status := rfl

lemma mkBooking_book_date (cfg : Config) (dr : Draws) (d : ℤ) (rt : String)
    (rc : RoomCfg) (id : ℕ) :
    (mkBooking cfg dr d rt rc id).book_date = clampBookDate cfg dr d := rfl

lemma mkBooking_rate_plan (cfg : Config) (dr : Draws) (d : ℤ) (rt : String)
    (rc : RoomCfg) (id : ℕ) :
    (mkBooking cfg dr d rt rc id).rate_plan =
      (if dr.is_member then basePlanOf cfg dr d ++ " + Member"
       else basePlanOf cfg dr d) := rfl

lemma mkBooking_booked_rate (cfg : Config) (dr : Draws) (d : ℤ) (rt : String)
    (rc : RoomCfg) (id : ℕ) :
    (mkBooking cfg dr d rt rc id).booked_rate =
      round2 (preRate cfg dr d rc * dr.jitter) := rfl

lemma mkBooking_revenue (cfg : Config) (dr : Draws) (d : ℤ) (rt : String)
    (rc : RoomCfg) (id : ℕ) :
    (mkBooking cfg dr d rt rc id).revenue =
      (if dr.status = "Confirmed" then
        round2 (preRate cfg dr d rc * dr.jitter) * (dr.nights : ℚ) else 0) := rfl

lemma other_plans_eval : other_plans = ["BAR", "Non-Refundable", "Corporate"] := by
  decide

lemma basePlanOf_cases (cfg : Config) (dr : Draws) (d : ℤ)
    (hc : dr.plan_choice < 3) :
    basePlanOf cfg dr d = ebPlan ∨ basePlanOf cfg dr d = "BAR" ∨
    basePlanOf cfg dr d = "Non-Refundable" ∨ basePlanOf cfg dr d = "Corporate" := by
  unfold basePlanOf
  split_ifs
  · left
    rfl
  · right
    rw [other_plans_eval]
    interval_cases h : dr.plan_choice
    · left
      rfl
    · right
      left
      rfl
    · right
      right
      rfl

lemma oW_valid : oW.Valid := by
  intro d ri k
  refine ⟨by norm_num [oW, drW], by norm_num [oW, drW], by norm_num [oW, drW],
    by norm_num [oW, drW], by norm_num [oW, drW], by norm_num [oW, drW],
    by norm_num [oW, drW], by norm_num [oW, drW], Or.inl rfl⟩

lemma run_cfgW_eval : (run cfgW oW).bookings = [bW] := by
  simp [run, cfgW, runFrom, processDay, processRooms, blockStep, candLoop, candStep,
    mkBooking, initState, trackIncr, pyTrunc, round2, other_plans, rate_plans, ebPlan,
    lookupDiscount, oW, drW, bW]
  norm_num

lemma run_cfgC1x_eval : (run cfgC1x oW).bookings = [b1x] := by
  simp [run, cfgC1x, runFrom, processDay, processRooms, blockStep, candLoop, candStep,
    mkBooking, initState, trackIncr, pyTrunc, round2, other_plans, rate_plans, ebPlan,
    lookupDiscount, oW, drW, b1x]
  norm_num

lemma run_cfgC7x_eval : (run cfgC7x oW).bookings = [b7x] := by
  simp [run, cfgC7x, runFrom, processDay, processRooms, blockStep, candLoop, candStep,
    mkBooking, initState, trackIncr, pyTrunc, round2, other_plans, rate_plans, ebPlan,
    lookupDiscount, oW, drW, b7x]

lemma run_cfg10_eval : (run cfg10 oW).bookings = [b10x] := by
  simp [run, cfg10, runFrom, processDay, processRooms, blockStep, candLoop, candStep,
    mkBooking, initState, trackIncr, pyTrunc, round2, other_plans, rate_plans, ebPlan,
    lookupDiscount, oW, drW, b10x]
  norm_num [round_eq]

/-- C1 (amended): provided the booking window is properly ordered
(`booking_start ≤ booking_end`) and opens no later than the stay window
(`booking_start ≤ checkin_start`), every emitted booking's booking date lies
in `[booking_start, booking_end]` and does not exceed its check-in date.
Without these provisos the source's clamp can violate both bounds, since the
sidebar only warns about misordered windows. -/
theorem C1_booking_date_window (cfg : Config) (O : Oracle) (hO : O.Valid)
    (h1 : cfg.booking_start ≤ cfg.booking_end)
    (h2 : cfg.booking_start ≤ cfg.checkin_start)
    (b : Booking) (hb : b ∈ (run cfg O).bookings) :
    cfg.booking_start ≤ b.book_date ∧ b.book_date ≤ cfg.booking_end ∧
      b.book_date ≤ b.checkin := by
  refine run_bookings_all (Q := fun b => cfg.booking_start ≤ b.book_date ∧
    b.book_date ≤ cfg.booking_end ∧ b.book_date ≤ b.checkin) ?_ b hb
  intro d ri k id p hp hcs hce hg
  obtain ⟨hadv, _⟩ := hO d ri k
  simp only [mkBooking_book_date, mkBooking_checkin, clampBookDate]
  split_ifs with h <;> omega

/-- C1 counterexample: with booking window `[10, 5]` (misordered, start after
the stay window) the run still emits a booking whose booking date 5 is below
the window start and after its check-in date 0 — the claim fails for this
configuration. -/
theorem C1_booking_date_window_cx :
    b1x ∈ (run cfgC1x oW).bookings ∧
    ¬ cfgC1x.booking_start ≤ b1x.book_date ∧ ¬ b1x.book_date ≤ b1x.checkin := by
  refine ⟨?_, by norm_num [cfgC1x, b1x], by norm_num [b1x]⟩
  rw [run_cfgC1x_eval]
  exact List.mem_singleton.mpr rfl

/-- C1 witness: the amended theorem applied to the well-formed configuration
`cfgW` and its emitted booking `bW`. -/
theorem C1_booking_date_window_witness :
    cfgW.booking_start ≤ bW.book_date ∧ bW.book_date ≤ cfgW.booking_end ∧
      bW.book_date ≤ bW.checkin := by
  have hmem : bW ∈ (run cfgW oW).bookings := by
    rw [run_cfgW_eval]
    exact List.mem_singleton.mpr rfl
  exact C1_booking_date_window cfgW oW oW_valid (by norm_num [cfgW])
    (by norm_num [cfgW]) bW hmem

/-- C2: at the end of a run the occupancy tracker never exceeds a room type's
total room count on any horizon day, provided every drawn target occupancy
fraction is at most 1 (room-type names are unique, as Python dict keys are). -/
theorem C2_occupancy_tracker_bounded (cfg : Config) (O : Oracle)
    (hnd : (cfg.room_configs.map Prod.fst).Nodup)
    (hpct : ∀ d ri, O.pct d ri ≤ 1)
    (p : String × RoomCfg) (hp : p ∈ cfg.room_configs)
    (t : ℤ) (ht1 : cfg.checkin_start ≤ t) (ht2 : t ≤ cfg.checkin_end) :
    (run cfg O).tracker t p.1 ≤ p.2.total := by
  have hinit : TrackerInv cfg cfg.checkin_start initState := by
    intro q hq
    exact ⟨fun t2 _ => Nat.zero_le _, fun t2 _ => le_rfl⟩
  have hfin := runFrom_inv cfg O hnd hpct
    ((cfg.checkin_end + 1 - cfg.checkin_start).toNat) cfg.checkin_start
    initState le_rfl hinit
  exact (hfin p hp).1 t (by omega)

/-- C2 witness: the bound evaluated on the concrete run `run cfgW oW`. -/
theorem C2_occupancy_tracker_bounded_witness :
    (run cfgW oW).tracker 10 "Standard" ≤ 1 := by
  exact C2_occupancy_tracker_bounded cfgW oW (by simp [cfgW])
    (fun d ri => by norm_num [oW])
    ("Standard", { total := 1, base_rate := 900000 })
    (List.mem_singleton.mpr rfl) 10 (by norm_num [cfgW]) (by norm_num [cfgW])

/-- C4: a candidate whose checkout would pass the stay-window end is dropped
without any state change (no booking, no tracker update, no counter advance),
and consequently every emitted booking has `checkout = checkin + nights`,
`checkout > checkin`, `nights ∈ [1,7]` and `checkout ≤ checkin_end`. -/
theorem C4_checkout_guard (cfg : Config) (O : Oracle) (hO : O.Valid)
    (dr : Draws) (d : ℤ) (rt : String) (rc : RoomCfg) (s : GenState)
    (b : Booking) :
    (cfg.checkin_end < d + (dr.nights : ℤ) → candStep cfg dr d rt rc s = s) ∧
    (b ∈ (run cfg O).bookings →
      b.checkout = b.checkin + (b.nights : ℤ) ∧ b.checkin < b.checkout ∧
      1 ≤ b.nights ∧ b.nights ≤ 7 ∧ b.checkout ≤ cfg.checkin_end) := by
  constructor
  · intro h
    simp only [candStep]
    rw [if_neg (by omega)]
  · intro hb
    refine run_bookings_all (Q := fun b => b.checkout = b.checkin + (b.nights : ℤ) ∧
      b.checkin < b.checkout ∧ 1 ≤ b.nights ∧ b.nights ≤ 7 ∧
      b.checkout ≤ cfg.checkin_end) ?_ b hb
    intro d2 ri k id p hp hcs hce hg
    obtain ⟨_, hn1, hn7, _⟩ := hO d2 ri k
    refine ⟨?_, ?_, ?_, ?_, ?_⟩
    · rw [mkBooking_checkout, mkBooking_checkin, mkBooking_nights]
    · rw [mkBooking_checkout, mkBooking_checkin]
      omega
    · rw [mkBooking_nights]
      exact hn1
    · rw [mkBooking_nights]
      exact hn7
    · rw [mkBooking_checkout]
      exact hg

/-- C4 witness: on day 11 of `cfgW` (one night past the horizon end) the
candidate is discarded leaving the state untouched, and the emitted booking
`bW` satisfies all checkout constraints. -/
theorem C4_checkout_guard_witness :
    candStep cfgW drW 11 "Standard" { total := 1, base_rate := 900000 }
      initState = initState ∧
    (bW.checkout = bW.checkin + (bW.nights : ℤ) ∧ bW.checkin < bW.checkout ∧
      1 ≤ bW.nights ∧ bW.nights ≤ 7 ∧ bW.checkout ≤ cfgW.checkin_end) := by
  have h := C4_checkout_guard cfgW oW oW_valid drW 11 "Standard"
    { total := 1, base_rate := 900000 } initState bW
  refine ⟨h.1 (by norm_num [cfgW, drW]), h.2 ?_⟩
  rw [run_cfgW_eval]
  exact List.mem_singleton.mpr rfl

/-- C7 (amended): revenue is 0 whenever the booking is Cancelled, and equals
the rounded booked rate times the nights when Confirmed; the biconditional
"revenue is 0 iff Cancelled" holds only when the booked rate is nonzero (a
Confirmed booking whose corporate discount exactly equals the base rate earns
revenue 0 while not being Cancelled). -/
theorem C7_revenue_status (cfg : Config) (O : Oracle) (hO : O.Valid)
    (b : Booking) (hb : b ∈ (run cfg O).bookings) :
    (b.status = "Confirmed" ∨ b.status = "Cancelled") ∧
    (b.status = "Cancelled" → b.revenue = 0) ∧
    (b.status = "Confirmed" → b.revenue = b.booked_rate * (b.nights : ℚ)) ∧
    (b.booked_rate ≠ 0 → (b.revenue = 0 ↔ b.status = "Cancelled")) := by
  refine run_bookings_all (Q := fun b =>
    (b.status = "Confirmed" ∨ b.status = "Cancelled") ∧
    (b.status = "Cancelled" → b.revenue = 0) ∧
    (b.status = "Confirmed" → b.revenue = b.booked_rate * (b.nights : ℚ)) ∧
    (b.booked_rate ≠ 0 → (b.revenue = 0 ↔ b.status = "Cancelled"))) ?_ b hb
  intro d ri k id p hp hcs hce hg
  obtain ⟨_, hn1, _, _, _, _, _, _, hst⟩ := hO d ri k
  rw [mkBooking_status, mkBooking_revenue, mkBooking_booked_rate, mkBooking_nights]
  refine ⟨hst, ?_, ?_, ?_⟩
  · intro hc
    rw [hc, if_neg (by decide)]
  · intro hc
    rw [hc, if_pos rfl]
  · intro hrate
    rcases hst with h1 | h1
    · rw [h1, if_pos rfl]
      constructor
      · intro h2
        rcases mul_eq_zero.mp h2 with h3 | h3
        · exact absurd h3 hrate
        · exfalso
          have : (O.draws d ri k).nights = 0 := by exact_mod_cast h3
          omega
      · intro h2
        exact absurd h2 (by simp)
    · rw [h1, if_neg (by decide)]
      exact iff_of_true rfl rfl

/-- C7 counterexample: with corporate discount equal to the base rate, the
run emits a Confirmed booking with revenue 0 — "revenue = 0 only if
Cancelled" fails at this input. -/
theorem C7_revenue_status_cx :
    b7x ∈ (run cfgC7x oW).bookings ∧ b7x.revenue = 0 ∧ b7x.status ≠ "Cancelled" := by
  refine ⟨?_, rfl, by decide⟩
  rw [run_cfgC7x_eval]
  exact List.mem_singleton.mpr rfl

/-- C7 witness: the amended theorem applied to the emitted booking `bW`. -/
theorem C7_revenue_status_witness :
    (bW.status = "Confirmed" ∨ bW.status = "Cancelled") ∧
    (bW.status = "Cancelled" → bW.revenue = 0) ∧
    (bW.status = "Confirmed" → bW.revenue = bW.booked_rate * (bW.nights : ℚ)) ∧
    (bW.booked_rate ≠ 0 → (bW.revenue = 0 ↔ bW.status = "Cancelled")) := by
  have hmem : bW ∈ (run cfgW oW).bookings := by
    rw [run_cfgW_eval]
    exact List.mem_singleton.mpr rfl
  exact C7_revenue_status cfgW oW oW_valid bW hmem

/-- C5: whenever the (clamped) advance exceeds 30 days the emitted booking's
plan label is the early-bird plan (possibly with the member suffix);
otherwise the label is one of the other configured plans (Corporate
included, early-bird excluded), the one selected by the uniform index draw. -/
theorem C5_rate_plan_selection (cfg : Config) (O : Oracle) (hO : O.Valid)
    (b : Booking) (hb : b ∈ (run cfg O).bookings) :
    (30 < b.checkin - b.book_date →
      b.rate_plan = ebPlan ∨ b.rate_plan = ebPlan ++ " + Member") ∧
    (b.checkin - b.book_date ≤ 30 →
      b.rate_plan ∈ other_plans ∨
        ∃ q ∈ other_plans, b.rate_plan = q ++ " + Member") ∧
    other_plans = ["BAR", "Non-Refundable", "Corporate"] := by
  refine run_bookings_all (Q := fun b =>
    (30 < b.checkin - b.book_date →
      b.rate_plan = ebPlan ∨ b.rate_plan = ebPlan ++ " + Member") ∧
    (b.checkin - b.book_date ≤ 30 →
      b.rate_plan ∈ other_plans ∨
        ∃ q ∈ other_plans, b.rate_plan = q ++ " + Member") ∧
    other_plans = ["BAR", "Non-Refundable", "Corporate"]) ?_ b hb
  intro d ri k id p hp hcs hce hg
  obtain ⟨_, _, _, hpc, _⟩ := hO d ri k
  rw [mkBooking_rate_plan, mkBooking_checkin, mkBooking_book_date]
  refine ⟨?_, ?_, other_plans_eval⟩
  · intro h30
    have hbp : basePlanOf cfg (O.draws d ri k) d = ebPlan := by
      unfold basePlanOf
      rw [if_pos h30]
    rw [hbp]
    split_ifs
    · right
      rfl
    · left
      rfl
  · intro h30
    have hbp : basePlanOf cfg (O.draws d ri k) d =
        other_plans.getD (O.draws d ri k).plan_choice "BAR" := by
      unfold basePlanOf
      rw [if_neg (by omega)]
    have hmemq : other_plans.getD (O.draws d ri k).plan_choice "BAR" ∈ other_plans := by
      rw [other_plans_eval]
      interval_cases h : (O.draws d ri k).plan_choice <;> simp
    rw [hbp]
    split_ifs
    · right
      exact ⟨_, hmemq, rfl⟩
    · left
      exact hmemq

/-- C5 witness: the selection rule applied to the emitted booking `bW`
(advance 1 day, plan drawn from the non-early-bird plans). -/
theorem C5_rate_plan_selection_witness :
    (30 < bW.checkin - bW.book_date →
      bW.rate_plan = ebPlan ∨ bW.rate_plan = ebPlan ++ " + Member") ∧
    (bW.checkin - bW.book_date ≤ 30 →
      bW.rate_plan ∈ other_plans ∨
        ∃ q ∈ other_plans, bW.rate_plan = q ++ " + Member") ∧
    other_plans = ["BAR", "Non-Refundable", "Corporate"] := by
  have hmem : bW ∈ (run cfgW oW).bookings := by
    rw [run_cfgW_eval]
    exact List.mem_singleton.mpr rfl
  exact C5_rate_plan_selection cfgW oW oW_valid bW hmem

/-- C6: the emitted booked rate is the 2-decimal rounding of the plan rate
(`base − corporateDiscount` for Corporate, `base × (1 − planDiscount)`
otherwise), multiplied by `1 − memberDiscount/100` exactly when the booking
is marked as a member (which also appends the member suffix to the plan
label), and finally by the jitter draw from `[0.95, 1.05]`. -/
theorem C6_rate_computation (cfg : Config) (O : Oracle) (hO : O.Valid)
    (b : Booking) (hb : b ∈ (run cfg O).bookings) :
    ∃ rc, (b.room_type, rc) ∈ cfg.room_configs ∧
    ∃ plan0 j, ∃ mem : Bool,
      ((19 : ℚ) / 20 ≤ j ∧ j ≤ 21 / 20) ∧
      ((30 < b.checkin - b.book_date ∧ plan0 = ebPlan) ∨ plan0 ∈ other_plans) ∧
      b.rate_plan = (if mem then plan0 ++ " + Member" else plan0) ∧
      b.booked_rate = round2
        ((if mem then
            (if plan0 = "Corporate" then rc.base_rate - cfg.corporate_discount_idr
             else rc.base_rate * (1 - lookupDiscount cfg plan0)) *
              (1 - cfg.member_discount_pct / 100)
          else
            (if plan0 = "Corporate" then rc.base_rate - cfg.corporate_discount_idr
             else rc.base_rate * (1 - lookupDiscount cfg plan0))) * j) := by
  refine run_bookings_all (Q := fun b =>
    ∃ rc, (b.room_type, rc) ∈ cfg.room_configs ∧
    ∃ plan0 j, ∃ mem : Bool,
      ((19 : ℚ) / 20 ≤ j ∧ j ≤ 21 / 20) ∧
      ((30 < b.checkin - b.book_date ∧ plan0 = ebPlan) ∨ plan0 ∈ other_plans) ∧
      b.rate_plan = (if mem then plan0 ++ " + Member" else plan0) ∧
      b.booked_rate = round2
        ((if mem then
            (if plan0 = "Corporate" then rc.base_rate - cfg.corporate_discount_idr
             else rc.base_rate * (1 - lookupDiscount cfg plan0)) *
              (1 - cfg.member_discount_pct / 100)
          else
            (if plan0 = "Corporate" then rc.base_rate - cfg.corporate_discount_idr
             else rc.base_rate * (1 - lookupDiscount cfg plan0))) * j)) ?_ b hb
  intro d ri k id p hp hcs hce hg
  obtain ⟨_, _, _, hpc, hj1, hj2, _⟩ := hO d ri k
  refine ⟨p.2, by rw [mkBooking_room_type]; exact hp, basePlanOf cfg (O.draws d ri k) d,
    (O.draws d ri k).jitter, (O.draws d ri k).is_member, ⟨hj1, hj2⟩, ?_, ?_, ?_⟩
  · rw [mkBooking_checkin, mkBooking_book_date]
    by_cases h30 : 30 < d - clampBookDate cfg (O.draws d ri k) d
    · left
      refine ⟨h30, ?_⟩
      unfold basePlanOf
      rw [if_pos h30]
    · right
      have hbp : basePlanOf cfg (O.draws d ri k) d =
          other_plans.getD (O.draws d ri k).plan_choice "BAR" := by
        unfold basePlanOf
        rw [if_neg h30]
      rw [hbp, other_plans_eval]
      interval_cases h : (O.draws d ri k).plan_choice <;> simp
  · rw [mkBooking_rate_plan]
  · rw [mkBooking_booked_rate]
    rfl

/-- C6 witness: the rate law applied to the emitted booking `bW`. -/
theorem C6_rate_computation_witness :
    ∃ rc, (bW.room_type, rc) ∈ cfgW.room_configs ∧
    ∃ plan0 j, ∃ mem : Bool,
      ((19 : ℚ) / 20 ≤ j ∧ j ≤ 21 / 20) ∧
      ((30 < bW.checkin - bW.book_date ∧ plan0 = ebPlan) ∨ plan0 ∈ other_plans) ∧
      bW.rate_plan = (if mem then plan0 ++ " + Member" else plan0) ∧
      bW.booked_rate = round2
        ((if mem then
            (if plan0 = "Corporate" then rc.base_rate - cfgW.corporate_discount_idr
             else rc.base_rate * (1 - lookupDiscount cfgW plan0)) *
              (1 - cfgW.member_discount_pct / 100)
          else
            (if plan0 = "Corporate" then rc.base_rate - cfgW.corporate_discount_idr
             else rc.base_rate * (1 - lookupDiscount cfgW plan0))) * j) := by
  have hmem : bW ∈ (run cfgW oW).bookings := by
    rw [run_cfgW_eval]
    exact List.mem_singleton.mpr rfl
  exact C6_rate_computation cfgW oW oW_valid bW hmem

/-- C10: the Corporate rate is not clamped below at zero — whenever the
configured (integer) corporate discount exceeds the booked room type's own
(integer) base rate, the emitted Corporate-plan booking has a negative booked
rate, and a negative revenue if Confirmed.  Other room types' rates are
unconstrained. -/
theorem C10_corporate_rate_negative (cfg : Config) (O : Oracle) (hO : O.Valid)
    (hbase : ∀ p ∈ cfg.room_configs, ∃ n : ℕ, p.2.base_rate = n)
    (hcorp : ∃ n : ℕ, cfg.corporate_discount_idr = n)
    (hm0 : 0 ≤ cfg.member_discount_pct) (hm50 : cfg.member_discount_pct ≤ 50)
    (b : Booking) (hb : b ∈ (run cfg O).bookings)
    (hgt : ∀ rc : RoomCfg, (b.room_type, rc) ∈ cfg.room_configs →
      rc.base_rate < cfg.corporate_discount_idr)
    (hplan : b.rate_plan = "Corporate" ∨ b.rate_plan = "Corporate + Member") :
    b.booked_rate < 0 ∧ (b.status = "Confirmed" → b.revenue < 0) := by
  refine run_bookings_all (Q := fun b =>
    (∀ rc : RoomCfg, (b.room_type, rc) ∈ cfg.room_configs →
      rc.base_rate < cfg.corporate_discount_idr) →
    (b.rate_plan = "Corporate" ∨ b.rate_plan = "Corporate + Member") →
      b.booked_rate < 0 ∧ (b.status = "Confirmed" → b.revenue < 0)) ?_ b hb hgt hplan
  intro d ri k id p hp hcs hce hg hgt2 hpl
  obtain ⟨_, hn1, _, hpc, hj1, hj2, _, _, _⟩ := hO d ri k
  rw [mkBooking_rate_plan] at hpl
  have hbp4 := basePlanOf_cases cfg (O.draws d ri k) d hpc
  have hbpC : basePlanOf cfg (O.draws d ri k) d = "Corporate" := by
    rcases hbp4 with h | h | h | h
    · exfalso
      rw [h] at hpl
      rcases hpl with h2 | h2 <;> split_ifs at h2 <;> revert h2 <;> decide
    · exfalso
      rw [h] at hpl
      rcases hpl with h2 | h2 <;> split_ifs at h2 <;> revert h2 <;> decide
    · exfalso
      rw [h] at hpl
      rcases hpl with h2 | h2 <;> split_ifs at h2 <;> revert h2 <;> decide
    · exact h
  obtain ⟨n, hn⟩ := hbase p hp
  obtain ⟨m, hm'⟩ := hcorp
  have hlt : p.2.base_rate < cfg.corporate_discount_idr := by
    apply hgt2 p.2
    rw [mkBooking_room_type]
    exact hp
  have hnm : n < m := by
    rw [hn, hm'] at hlt
    exact_mod_cast hlt
  have hd1 : p.2.base_rate - cfg.corporate_discount_idr ≤ -1 := by
    rw [hn, hm']
    have : (n : ℚ) + 1 ≤ (m : ℚ) := by exact_mod_cast hnm
    linarith
  have hpre : preRate cfg (O.draws d ri k) d p.2 ≤ -1 / 2 := by
    simp only [preRate, hbpC]
    norm_num
    split_ifs
    · nlinarith
    · linarith
  have hprej : preRate cfg (O.draws d ri k) d p.2 * (O.draws d ri k).jitter ≤
      -19 / 40 := by
    have h1 : preRate cfg (O.draws d ri k) d p.2 * (O.draws d ri k).jitter ≤
        preRate cfg (O.draws d ri k) d p.2 * (19 / 20) :=
      mul_le_mul_of_nonpos_left hj1 (by linarith)
    nlinarith
  have hrate : round2 (preRate cfg (O.draws d ri k) d p.2 *
      (O.draws d ri k).jitter) < 0 := round2_neg_of_le _ hprej
  constructor
  · rw [mkBooking_booked_rate]
    exact hrate
  · intro hstC
    rw [mkBooking_status] at hstC
    rw [mkBooking_revenue, if_pos hstC]
    have hpos : (0 : ℚ) < ((O.draws d ri k).nights : ℚ) := by
      exact_mod_cast Nat.lt_of_lt_of_le Nat.zero_lt_one hn1
    exact mul_neg_of_neg_of_pos hrate hpos

/-- C10 witness: with corporate discount 1,000,000 against base rate 900,000
the emitted Corporate booking has rate −100,000 and revenue −100,000. -/
theorem C10_corporate_rate_negative_witness :
    b10x.booked_rate < 0 ∧ (b10x.status = "Confirmed" → b10x.revenue < 0) := by
  have hmem : b10x ∈ (run cfg10 oW).bookings := by
    rw [run_cfg10_eval]
    exact List.mem_singleton.mpr rfl
  exact C10_corporate_rate_negative cfg10 oW oW_valid
    (by
      intro p hp
      rcases List.mem_singleton.mp hp with rfl
      exact ⟨900000, by norm_num⟩)
    ⟨1000000, by norm_num [cfg10]⟩
    (by norm_num [cfg10]) (by norm_num [cfg10]) b10x hmem
    (by
      intro rc hrc
      have h2 : rc = { total := 1, base_rate := 900000 } :=
        congrArg Prod.snd (List.mem_singleton.mp hrc)
      rw [h2]
      norm_num [cfg10])
    (Or.inl rfl)

/-- C3 (amended): whenever the raw stay-length weights have nonzero sum,
normalization succeeds and the resulting vector sums to 1; on the all-zero
vector the source raises `ZeroDivisionError` (modelled as `none`) — there is
no uniform fallback. -/
theorem C3_night_weights_normalization (ws : List ℚ) (h : ws.sum ≠ 0) :
    ∃ l, normalize_night_weights ws = some l ∧ l.sum = 1 := by
  refine ⟨ws.map (fun w => w / ws.sum), ?_, ?_⟩
  · unfold normalize_night_weights
    rw [if_neg h]
  · rw [sum_map_div]
    exact div_self h

/-- C3 counterexample: on seven all-zero custom weights (each slider allows
0) the normalization of line 285 divides by zero — no vector is produced at
all, contradicting the claim that the result is defined and sums to 1. -/
theorem C3_night_weights_normalization_cx :
    normalize_night_weights [0, 0, 0, 0, 0, 0, 0] = none := by
  unfold normalize_night_weights
  rw [if_pos (by norm_num)]

/-- C3 witness: the default Business-Hotel weight preset normalizes to a
vector summing to 1. -/
theorem C3_night_weights_normalization_witness :
    ∃ l, normalize_night_weights [35, 30, 15, 10, 7, 2, 1] = some l ∧
      l.sum = 1 := by
  exact C3_night_weights_normalization [35, 30, 15, 10, 7, 2, 1] (by norm_num)

/-- C8: `get_occupancy_for_date` computes exactly the specification's
description — months difference `(y₁−y₂)·12 + (m₁−m₂)`, tier 1 for negative
and 0–3 month offsets, tier 2 for 4–6, tier 3 for 7–9, tier 4 from 10 on,
a uniform draw from the tier's percentage range divided by 100, and the
fallback percentage range when no tier configuration is supplied. -/
theorem C8_occupancy_matches_spec (checkin_date today : PyDate)
    (tier_ranges : Option TierRanges) (fallback_min fallback_max u : ℚ) :
    get_occupancy_for_date checkin_date today tier_ranges fallback_min
      fallback_max u =
    occupancySpec checkin_date today tier_ranges fallback_min fallback_max u := by
  cases tier_ranges with
  | none => rfl
  | some tiers =>
      simp only [get_occupancy_for_date, occupancySpec]
      have htier : ∀ md : ℤ,
          (if md < 0 then 1 else if md ≤ 3 then 1 else if md ≤ 6 then 2
           else if md ≤ 9 then 3 else (4 : ℕ)) = tierForMonthsSpec md := by
        intro md
        unfold tierForMonthsSpec
        split_ifs <;> omega
      rw [htier]

/-- C9: on every invocation the occupancy-target function returns a value in
`[0, 1]`: the tier and fallback percentage bounds the sidebar can produce lie
in `[0, 100]`, and the uniform unit draw lies in `[0, 1]`.  Totality (no
error) is by construction of the function. -/
theorem C9_occupancy_in_unit_interval (checkin_date today : PyDate)
    (tier_ranges : Option TierRanges) (fallback_min fallback_max u : ℚ)
    (hu0 : 0 ≤ u) (hu1 : u ≤ 1)
    (hf1 : 0 ≤ fallback_min) (hf2 : fallback_min ≤ 100)
    (hf3 : 0 ≤ fallback_max) (hf4 : fallback_max ≤ 100)
    (htr : ∀ tiers, tier_ranges = some tiers → TierRangesBounded tiers) :
    0 ≤ get_occupancy_for_date checkin_date today tier_ranges fallback_min
        fallback_max u ∧
    get_occupancy_for_date checkin_date today tier_ranges fallback_min
        fallback_max u ≤ 1 := by
  cases tier_ranges with
  | none =>
      constructor
      · exact uniformDraw_nonneg _ _ u (by linarith) (by linarith) hu0 hu1
      · exact uniformDraw_le_one _ _ u (by linarith) (by linarith) hu0 hu1
  | some tiers =>
      obtain ⟨⟨h11, h12⟩, ⟨h13, h14⟩, ⟨h21, h22⟩, ⟨h23, h24⟩, ⟨h31, h32⟩,
        ⟨h33, h34⟩, ⟨h41, h42⟩, ⟨h43, h44⟩⟩ := htr tiers rfl
      simp only [get_occupancy_for_date]
      split_ifs <;>
        exact ⟨uniformDraw_nonneg _ _ u (by simp [TierRanges.get]; linarith)
            (by simp [TierRanges.get]; linarith) hu0 hu1,
          uniformDraw_le_one _ _ u (by simp [TierRanges.get]; linarith)
            (by simp [TierRanges.get]; linarith) hu0 hu1⟩

/-- C9 witness: the default seasonal tier sliders, fallback 50–80, and a
mid-range unit draw produce a target occupancy inside `[0, 1]`. -/
theorem C9_occupancy_in_unit_interval_witness :
    0 ≤ get_occupancy_for_date { year := 2025, month := 6 }
        { year := 2025, month := 1 }
        (some { t1 := (75, 90), t2 := (55, 75), t3 := (40, 60), t4 := (25, 45) })
        50 80 (1 / 2) ∧
    get_occupancy_for_date { year := 2025, month := 6 }
        { year := 2025, month := 1 }
        (some { t1 := (75, 90), t2 := (55, 75), t3 := (40, 60), t4 := (25, 45) })
        50 80 (1 / 2) ≤ 1 := by
  refine C9_occupancy_in_unit_interval _ _ _ _ _ _ (by norm_num) (by norm_num)
    (by norm_num) (by norm_num) (by norm_num) (by norm_num) ?_
  intro tiers htiers
  injection htiers with htiers
  rw [← htiers]
  refine ⟨⟨by norm_num, by norm_num⟩, ⟨by norm_num, by norm_num⟩,
    ⟨by norm_num, by norm_num⟩, ⟨by norm_num, by norm_num⟩,
    ⟨by norm_num, by norm_num⟩, ⟨by norm_num, by norm_num⟩,
    ⟨by norm_num, by norm_num⟩, ⟨by norm_num, by norm_num⟩⟩
